import Mathlib

/-!
Shallow embedding of the PDF analysis caching subsystem of the
restaurant_revenue_prediction repository
(src/pdf_cache_manager.py and src/pdf_analyzer.py).

Modelling conventions:
* ISO-8601 timestamp strings are modelled as `Int` seconds; string comparison
  of equal-format ISO timestamps coincides with chronological comparison.
* The JSON payload (`analysis_data`) is modelled as its serialized `String`;
  `json.dumps`/`json.loads` round-tripping is the identity here.
* SHA-256 is not re-implemented: the digest function is passed as an explicit
  `hashFn : List Nat -> String` argument (the file's bytes are a `List Nat`).
* A file on disk is `Option (List Nat)`: `none` means every attempt to read it
  raises an I/O error, `some bytes` means reads succeed and yield `bytes`.
* The SQLite store's availability is a `Bool` argument `storeOk`: when it is
  `false`, `sqlite3.connect` (and everything after it in the `try` block)
  raises, and the surrounding `except` clause runs.
* Python dict/row state is explicit: the SQLite table is a `List PDFAnalysis`
  (one row per `file_id`, kept unique by `INSERT OR REPLACE`), the in-memory
  cache dict is an insertion-ordered association list.
-/

namespace PdfCache

/-- Status strings used by the source: 'completed', 'failed', 'processing'. -/
inductive Status where
  | completed
  | failed
  | processing
deriving DecidableEq

/-- The `PDFAnalysis` dataclass of src/pdf_cache_manager.py (lines 21-32). -/
structure PDFAnalysis where
  file_id : String
  filename : String
  file_hash : String
  /-- Field `analysis_date`: an ISO-8601 string in the source, modelled as
  seconds. -/
  analysis_date : Int
  /-- Field `analysis_data`: JSON payload, modelled by its serialized
  string. -/
  analysis_data : String
  tokens_used : Nat
  processing_time : Rat
  status : Status
  error_message : Option String
deriving DecidableEq

/-- Capacity of the in-memory cache: `self._max_memory_cache = 50`
(line 46). -/
def maxMemoryCache : Nat := 50

/-- Retention window `max_age = timedelta(days=30)` (line 134), in seconds. -/
def maxAgeSeconds : Int := 30 * 86400

/-- State of the in-memory cache `self._memory_cache`: a Python dict from file
hash to analysis, modelled as an insertion-ordered association list. -/
abbrev MemCache := List (String × PDFAnalysis)

/-- Rows of the SQLite table `pdf_analyses`, one per `file_id` (primary
key). -/
abbrev Store := List PDFAnalysis

/-- Dict lookup `cache[k]` combined with `k in cache`: the first entry holding
the key. -/
def memLookup (c : MemCache) (k : String) : Option PDFAnalysis :=
  (c.find? (fun p => p.1 = k)).map Prod.snd

/-- Dict assignment `cache[k] = v`: overwrite in place when the key is present
(keeping its position), otherwise append (Python dicts preserve insertion
order). -/
def memInsert (c : MemCache) (k : String) (v : PDFAnalysis) : MemCache :=
  if c.any (fun p => p.1 = k) then
    c.map (fun p => if p.1 = k then (k, v) else p)
  else
    c ++ [(k, v)]

/-- Eviction choice `min(self._memory_cache.keys(), key=lambda k:
cache[k].analysis_date)` (lines 146-147): the first entry, in dict iteration
(= insertion) order, holding the minimal `analysis_date`. -/
def oldestEntry : MemCache → Option (String × PDFAnalysis)
  | [] => none
  | x :: xs =>
      some (xs.foldl (fun b p => if p.2.analysis_date < b.2.analysis_date then p else b) x)

/-- Source `PDFCacheManager._add_to_memory_cache` (lines 140-150): if the dict
already holds at least `maxSize` entries, delete the oldest-by-`analysis_date`
entry, then store the record under its `file_hash`. -/
def add_to_memory_cache (maxSize : Nat) (c : MemCache) (a : PDFAnalysis) : MemCache :=
  memInsert
    (if maxSize ≤ c.length then
      match oldestEntry c with
      | some b => c.filter (fun p => ¬ p.1 = b.1)
      | none => c
    else c)
    a.file_hash a

/-- Upsert `INSERT OR REPLACE INTO pdf_analyses` keyed by primary key
`file_id` (lines 157-172): replace the row carrying this `file_id` if one
exists, else insert a new row. -/
def dbUpsert (db : Store) (a : PDFAnalysis) : Store :=
  if db.any (fun r => r.file_id = a.file_id) then
    db.map (fun r => if r.file_id = a.file_id then a else r)
  else
    db ++ [a]

/-- Query `SELECT * FROM pdf_analyses WHERE file_hash = ? AND status =
'completed' ORDER BY analysis_date DESC LIMIT 1` (lines 108-112): among the
rows matching the hash with status completed, one with maximal
`analysis_date`. -/
def latestCompleted (db : Store) (h : String) : Option PDFAnalysis :=
  match db.filter (fun r => decide (r.file_hash = h ∧ r.status = Status.completed)) with
  | [] => none
  | x :: xs =>
      some (xs.foldl (fun b r => if b.analysis_date < r.analysis_date then r else b) x)

/-- Source `PDFCacheManager._is_analysis_valid` (lines 130-138): the analysis
is valid when `datetime.now() - analysis_date < timedelta(days=30)`; the
status is not consulted. (The `except: return False` branch guards only the
ISO parse, which cannot fail on the `Int` timestamps of the model.) -/
def is_analysis_valid (now : Int) (a : PDFAnalysis) : Bool :=
  decide (now - a.analysis_date < maxAgeSeconds)

/-- Mutable state owned by a `PDFCacheManager`: the in-memory cache dict and
the SQLite table. -/
structure CacheState where
  memCache : MemCache
  db : Store
deriving DecidableEq

/-- Source `PDFCacheManager._calculate_file_hash` (lines 79-89): SHA-256 hex
digest of the file's bytes (digest abstracted as `hashFn`); any read error is
caught, logged, and the empty string is returned. -/
def calculate_file_hash (hashFn : List Nat → String) (file : Option (List Nat)) : String :=
  match file with
  | some bytes => hashFn bytes
  | none => ""

/-- Source `PDFCacheManager.save_analysis` (lines 152-181): `INSERT OR
REPLACE` the row, then add the record to the in-memory cache. The whole body
sits in a `try` whose `except` logs and falls through, so the function returns
`None` (here `Except.ok ()`) whether or not the store raised; when the store
raises, the in-memory insertion (which sits after the write inside the `try`
block) is skipped too. -/
def save_analysis (storeOk : Bool) (s : CacheState) (a : PDFAnalysis) :
    CacheState × Except String Unit :=
  if storeOk then
    ({ db := dbUpsert s.db a,
       memCache := add_to_memory_cache maxMemoryCache s.memCache a },
     Except.ok ())
  else
    (s, Except.ok ())

/-- Database branch of `get_cached_analysis` (lines 105-121): query the store
for the latest completed row with this hash; if that row is `_is_analysis_
valid`, add it to the in-memory cache and return it; a store exception is
caught by the surrounding `except`, which returns `None`. -/
def get_cached_from_db (storeOk : Bool) (now : Int) (s : CacheState) (h : String) :
    Option PDFAnalysis × CacheState :=
  if storeOk then
    match latestCompleted s.db h with
    | some row =>
        if is_analysis_valid now row then
          (some row, { s with memCache := add_to_memory_cache maxMemoryCache s.memCache row })
        else (none, s)
    | none => (none, s)
  else (none, s)

/-- Source `PDFCacheManager.get_cached_analysis` (lines 91-128): hash the file
(an empty hash means miss); try the in-memory dict first, returning its entry
when `_is_analysis_valid` holds (the status is NOT checked on this path);
otherwise fall through to the database branch. Returns the result together
with the updated state. -/
def get_cached_analysis (storeOk : Bool) (now : Int) (hashFn : List Nat → String)
    (s : CacheState) (file : Option (List Nat)) :
    Option PDFAnalysis × CacheState :=
  let h := calculate_file_hash hashFn file
  if h = "" then (none, s)
  else
    match memLookup s.memCache h with
    | some cached =>
        if is_analysis_valid now cached then (some cached, s)
        else get_cached_from_db storeOk now s h
    | none => get_cached_from_db storeOk now s h

/-- Source `PDFCacheManager.clear_old_analyses` (lines 242-256): delete the
rows whose `analysis_date` precedes `now - days`; the deleted count is only
logged, the function returns `None` (modelled as the `Option Nat` component,
always `none`). A store exception is caught and logged. -/
def clear_old_analyses (storeOk : Bool) (now : Int) (s : CacheState) (days : Int) :
    CacheState × Option Nat :=
  if storeOk then
    let cutoff := now - days * 86400
    ({ s with db := s.db.filter (fun r => ¬ r.analysis_date < cutoff) }, none)
  else
    (s, none)

/-- Source `PDFCacheManager._calculate_cache_hit_rate` (lines 237-240): the
constant 0.85, independent of any access history. -/
def calculate_cache_hit_rate : Rat := 85 / 100

/-- Shape of the dict returned by `get_analysis_stats` (lines 223-231). -/
structure Stats where
  total_analyses : Nat
  successful_analyses : Nat
  failed_analyses : Nat
  total_tokens_used : Nat
  average_processing_time : Rat
  memory_cache_size : Nat
  cache_hit_rate : Rat
deriving DecidableEq

/-- Source `PDFCacheManager.get_analysis_stats` (lines 197-235): counts, token
sum and mean processing time computed by SQL aggregates over the current rows
(every row written through `save_analysis` has non-NULL `tokens_used` and
`processing_time`, so the `IS NOT NULL` filters keep all rows; `SUM`/`AVG` of
an empty table is NULL, turned into 0 by `or 0`). The source additionally
rounds the mean to two decimals for display; the model keeps the exact
mean. -/
def get_analysis_stats (s : CacheState) : Stats :=
  { total_analyses := s.db.length,
    successful_analyses := (s.db.filter (fun r => decide (r.status = Status.completed))).length,
    failed_analyses := (s.db.filter (fun r => decide (r.status = Status.failed))).length,
    total_tokens_used := (s.db.map (fun r => r.tokens_used)).sum,
    average_processing_time :=
      if s.db.length = 0 then 0
      else (s.db.map (fun r => r.processing_time)).sum / (s.db.length : Rat),
    memory_cache_size := s.memCache.length,
    cache_hit_rate := calculate_cache_hit_rate }

/-- Serialized empty JSON object stored as `analysis_data` of failed
records. -/
def emptyJson : String := "\x7b\x7d"

/-- Outcome of `PDFAnalyzer.analyze_pdf_content` (src/pdf_analyzer.py lines
25-87): that function never raises; it returns either a success dict carrying
the parsed analysis and the token count, or a failure dict holding
`success=False`, the error string and an empty analysis. -/
inductive ProducerOutcome where
  | ok (analysis : String) (tokens : Nat)
  | failed (error : String)
deriving DecidableEq

/-- Shape of the dict returned by `PDFAnalyzer.analyze_pdf_with_cache`; `none`
in an `Option` field models a key absent from the returned Python dict (the
producer-failure path returns the producer's own dict, which has no
`tokens_used`, `processing_time`, `from_cache` or `cache_hit` keys). -/
structure AnalyzeResult where
  success : Bool
  analysis : String
  error : Option String
  tokens_used : Option Nat
  processing_time : Option Rat
  from_cache : Option Bool
  cache_hit : Option Bool
deriving DecidableEq

/-- Failed `PDFAnalysis` record as built in src/pdf_analyzer.py (lines 148-158
and 169-179): empty payload, zero tokens, status failed, the error string. -/
def failedRecord (file_id filename file_hash : String) (now : Int) (dur : Rat)
    (err : String) : PDFAnalysis :=
  { file_id := file_id, filename := filename, file_hash := file_hash,
    analysis_date := now, analysis_data := emptyJson, tokens_used := 0,
    processing_time := dur, status := Status.failed, error_message := some err }

/-- Source `PDFAnalyzer.analyze_pdf_with_cache` (src/pdf_analyzer.py lines
89-190). `extractedText` is what `_extract_text_from_file` yields on a
readable file (on an unreadable file that helper catches the I/O error and
returns the empty string); `producer` is the outcome of the
`analyze_pdf_content` call; `dur` the wall clock `time.time() - start_time`;
`now` the `datetime.now()` timestamp used for `analysis_date`. Paths:
cache hit: return the cached data tagged `from_cache=True, cache_hit=True`;
empty extracted text: `raise`, caught by the outer `except`, which saves a
failed record and returns a failure dict tagged `from_cache=False`;
producer success: save a completed record, return success tagged
`from_cache=False, cache_hit=False`;
producer failure: save a failed record and return the producer's failure dict
unchanged (`return analysis_result`). -/
def analyze_pdf_with_cache (storeOk : Bool) (now : Int) (hashFn : List Nat → String)
    (file : Option (List Nat)) (extractedText : String) (producer : ProducerOutcome)
    (dur : Rat) (file_id filename : String) (s : CacheState) :
    AnalyzeResult × CacheState :=
  match get_cached_analysis storeOk now hashFn s file with
  | (some cached, s1) =>
      ({ success := true, analysis := cached.analysis_data, error := none,
         tokens_used := some cached.tokens_used,
         processing_time := some cached.processing_time,
         from_cache := some true, cache_hit := some true }, s1)
  | (none, s1) =>
      let text := match file with
        | some _ => extractedText
        | none => ""
      if text = "" then
        let fr := failedRecord file_id filename (calculate_file_hash hashFn file) now dur
          "No se pudo extraer texto del PDF"
        let s2 := (save_analysis storeOk s1 fr).1
        ({ success := false, analysis := emptyJson,
           error := some "No se pudo extraer texto del PDF",
           tokens_used := none, processing_time := some dur,
           from_cache := some false, cache_hit := some false }, s2)
      else
        match producer with
        | ProducerOutcome.ok payload tokens =>
            let a : PDFAnalysis :=
              { file_id := file_id, filename := filename,
                file_hash := calculate_file_hash hashFn file,
                analysis_date := now, analysis_data := payload,
                tokens_used := tokens, processing_time := dur,
                status := Status.completed, error_message := none }
            let s2 := (save_analysis storeOk s1 a).1
            ({ success := true, analysis := payload, error := none,
               tokens_used := some tokens, processing_time := some dur,
               from_cache := some false, cache_hit := some false }, s2)
        | ProducerOutcome.failed err =>
            let fr := failedRecord file_id filename (calculate_file_hash hashFn file) now dur err
            let s2 := (save_analysis storeOk s1 fr).1
            ({ success := false, analysis := emptyJson, error := some err,
               tokens_used := none, processing_time := none,
               from_cache := none, cache_hit := none }, s2)

/-- Keys of a Python dict are pairwise distinct: invariant of the association
list modelling `self._memory_cache`. -/
def uniqueKeys (c : MemCache) : Prop := c.Pairwise (fun p q => p.1 ≠ q.1)

/-- Primary-key invariant of the `pdf_analyses` table: at most one row per
`file_id`. -/
def uniqueIds (db : Store) : Prop := db.Pairwise (fun r1 r2 => r1.file_id ≠ r2.file_id)

/-! Concrete inputs used by witnesses and counterexamples. -/

/-- Concrete stand-in digest function for witnesses and counterexamples. -/
def demoHash : List Nat → String :=
  fun b => "sha" ++ toString (b.foldl (fun a x => 10 * a + x) 0)

/-- Failed record as the analyzer builds it for a document whose bytes digest
to "sha7". -/
def demoFailed : PDFAnalysis := failedRecord "id1" "doc.pdf" "sha7" 100 1 "boom"

/-- State reached after the analyzer saved `demoFailed` (producer failure on
the document with digest "sha7"). -/
def demoState : CacheState := (save_analysis true ⟨[], []⟩ demoFailed).1

/-- Family of distinct completed records, `mkRec i` having fingerprint
`"h" ++ toString i` and creation time `i`. -/
def mkRec (i : Nat) : PDFAnalysis :=
  { file_id := "id" ++ toString i, filename := "f.pdf", file_hash := "h" ++ toString i,
    analysis_date := Int.ofNat i, analysis_data := "d", tokens_used := 0,
    processing_time := 0, status := Status.completed, error_message := none }

/-- Insert `count` distinct records (in increasing creation order) into an
empty in-memory cache of capacity `n`. -/
def fillCache (n count : Nat) : MemCache :=
  (List.range count).foldl (fun c i => add_to_memory_cache n c (mkRec i)) []

/-- A capacity-2 cache at capacity, holding fingerprints "h0" (older) and
"h1". -/
def demoC4Cache : MemCache := [("h0", mkRec 0), ("h1", mkRec 1)]

/-- A newer record re-using the already-present fingerprint "h1". -/
def demoC4Rec : PDFAnalysis := { mkRec 1 with analysis_date := 5 }

/-- Record for the stats scenario: number `i`, `tok` tokens, status `st`,
processing time 1. -/
def c9rec (i tok : Nat) (st : Status) : PDFAnalysis :=
  { file_id := "id" ++ toString i, filename := "f.pdf", file_hash := "h" ++ toString i,
    analysis_date := Int.ofNat i, analysis_data := "d", tokens_used := tok,
    processing_time := 1, status := st, error_message := none }

/-- State after saving 3 completed records with 10, 20, 30 tokens and 1 failed
record. -/
def c9state : CacheState :=
  [c9rec 0 10 Status.completed, c9rec 1 20 Status.completed,
   c9rec 2 30 Status.completed, c9rec 3 0 Status.failed].foldl
    (fun s a => (save_analysis true s a).1) ⟨[], []⟩

/-- State holding a single durable row and an empty in-memory cache. -/
def dbState (a : PDFAnalysis) : CacheState := ⟨[], [a]⟩

/-- Completed record with fingerprint "sha7" created at time `d`. -/
def bRec (d : Int) : PDFAnalysis :=
  { file_id := "b1", filename := "b.pdf", file_hash := "sha7", analysis_date := d,
    analysis_data := "d", tokens_used := 1, processing_time := 1,
    status := Status.completed, error_message := none }

/-- Fresh record with status failed (created at time 0). -/
def c6failedFresh : PDFAnalysis := failedRecord "c6" "c6.pdf" "sha7" 0 1 "boom"

/-- Completed record created at time 0 (age exactly `max_age` when `now =
maxAgeSeconds`). -/
def c6boundary : PDFAnalysis := bRec 0

/-- Reference time for the retention-sweep scenario. -/
def c7now : Int := 100 * 86400

/-- Row dated 40 days before `c7now`. -/
def c7old : PDFAnalysis :=
  { bRec (c7now - 40 * 86400) with file_id := "old1", file_hash := "hOld" }

/-- Row dated 5 days before `c7now`. -/
def c7recent : PDFAnalysis :=
  { bRec (c7now - 5 * 86400) with file_id := "new1", file_hash := "hNew" }

/-- Store holding exactly the 40-day-old and the 5-day-old rows. -/
def c7state : CacheState := ⟨[], [c7old, c7recent]⟩

/-- State whose hot cache holds the fresh completed record `bRec 2` under key
"sha7" while the durable store is empty. -/
def c8state : CacheState := ⟨[("sha7", bRec 2)], []⟩

instance (c : MemCache) : Decidable (uniqueKeys c) := by
  unfold uniqueKeys
  infer_instance

instance (db : Store) : Decidable (uniqueIds db) := by
  unfold uniqueIds
  infer_instance

end PdfCache

namespace PdfCache

theorem memLookup_cons (p : String × PDFAnalysis) (c : MemCache) (k : String) :
    memLookup (p :: c) k = if p.1 = k then some p.2 else memLookup c k := by
  by_cases h : p.1 = k
  · simp [memLookup, List.find?_cons_of_pos, h]
  · simp [memLookup, List.find?_cons_of_neg, h]

theorem memLookup_eq_none (c : MemCache) (k : String)
    (h : ¬ c.any (fun p => p.1 = k) = true) : memLookup c k = none := by
  unfold memLookup
  rw [List.find?_eq_none.mpr]
  · rfl
  · intro x hx hpx
    exact h (List.any_eq_true.mpr ⟨x, hx, hpx⟩)

theorem memLookup_map_self (c : MemCache) (k : String) (v : PDFAnalysis) :
    memLookup (c.map (fun p => if p.1 = k then (k, v) else p)) k
      = if c.any (fun p => p.1 = k) then some v else none := by
  induction c with
  | nil => simp [memLookup]
  | cons p t ih =>
    by_cases hp : p.1 = k
    · simp [memLookup_cons, hp]
    · rw [List.map_cons, if_neg hp, memLookup_cons, if_neg hp, ih, List.any_cons]
      rw [decide_eq_false hp, Bool.false_or]

theorem memLookup_map_ne (c : MemCache) (k k' : String) (v : PDFAnalysis)
    (h : ¬ k' = k) :
    memLookup (c.map (fun p => if p.1 = k then (k, v) else p)) k'
      = memLookup c k' := by
  induction c with
  | nil => rfl
  | cons p t ih =>
    rw [List.map_cons, memLookup_cons, memLookup_cons, ih]
    by_cases hp : p.1 = k
    · rw [if_pos hp, if_neg (fun hh => h hh.symm),
        if_neg (fun hh : p.1 = k' => h (hh.symm.trans hp))]
    · rw [if_neg hp]

theorem memLookup_memInsert_self (c : MemCache) (k : String) (v : PDFAnalysis) :
    memLookup (memInsert c k v) k = some v := by
  unfold memInsert
  by_cases h : c.any (fun p => p.1 = k) = true
  · rw [if_pos h, memLookup_map_self, if_pos h]
  · rw [if_neg h]
    unfold memLookup
    rw [List.find?_append, List.find?_eq_none.mpr]
    · simp [memLookup]
    · intro x hx hpx
      exact h (List.any_eq_true.mpr ⟨x, hx, hpx⟩)

theorem memLookup_memInsert_ne (c : MemCache) (k k' : String) (v : PDFAnalysis)
    (h : ¬ k' = k) :
    memLookup (memInsert c k v) k' = memLookup c k' := by
  unfold memInsert
  by_cases ha : c.any (fun p => p.1 = k) = true
  · rw [if_pos ha, memLookup_map_ne _ _ _ _ h]
  · rw [if_neg ha]
    unfold memLookup
    rw [List.find?_append]
    have h2 : List.find? (fun p => p.1 = k') [(k, v)] = none := by
      rw [List.find?_eq_none]
      intro x hx
      simp only [List.mem_singleton] at hx
      subst hx
      simp only [decide_eq_true_eq]
      exact fun hh => h hh.symm
    rw [h2]
    cases hf : List.find? (fun p => p.1 = k') c with
    | some q => rfl
    | none => rfl

theorem memLookup_filter_self (c : MemCache) (b1 : String) :
    memLookup (c.filter (fun p => ¬ p.1 = b1)) b1 = none := by
  unfold memLookup
  rw [List.find?_eq_none.mpr]
  · rfl
  · intro x hx hpx
    rcases List.mem_filter.mp hx with ⟨hxc, hxp⟩
    simp only [decide_eq_true_eq] at hxp hpx
    exact hxp hpx

theorem memLookup_filter_ne (c : MemCache) (b1 k : String) (h : ¬ k = b1) :
    memLookup (c.filter (fun p => ¬ p.1 = b1)) k = memLookup c k := by
  induction c with
  | nil => rfl
  | cons p t ih =>
    by_cases hp : p.1 = b1
    · rw [List.filter_cons_of_neg (by simp [hp]), memLookup_cons,
        if_neg (fun hh : p.1 = k => h (hh.symm.trans hp)), ih]
    · rw [List.filter_cons_of_pos (by simp [hp]), memLookup_cons, memLookup_cons, ih]

end PdfCache

namespace PdfCache

theorem length_memInsert_le (c : MemCache) (k : String) (v : PDFAnalysis) :
    (memInsert c k v).length ≤ c.length + 1 := by
  unfold memInsert
  by_cases h : c.any (fun p => p.1 = k) = true
  · rw [if_pos h, List.length_map]
    omega
  · rw [if_neg h, List.length_append]
    simp

theorem foldl_min_mem (xs : List (String × PDFAnalysis)) (x : String × PDFAnalysis) :
    xs.foldl (fun b p => if p.2.analysis_date < b.2.analysis_date then p else b) x ∈ x :: xs := by
  induction xs generalizing x with
  | nil => simp
  | cons y ys ih =>
    rw [List.foldl_cons]
    by_cases hc : y.2.analysis_date < x.2.analysis_date
    · rw [if_pos hc]
      rcases List.mem_cons.mp (ih y) with h1 | h1
      · rw [h1]; simp
      · simp [h1]
    · rw [if_neg hc]
      rcases List.mem_cons.mp (ih x) with h1 | h1
      · rw [h1]; simp
      · simp [h1]

theorem foldl_min_le (xs : List (String × PDFAnalysis)) (x : String × PDFAnalysis) :
    ∀ y ∈ x :: xs,
      (xs.foldl (fun b p => if p.2.analysis_date < b.2.analysis_date then p else b) x).2.analysis_date
        ≤ y.2.analysis_date := by
  induction xs generalizing x with
  | nil =>
    intro y hy
    simp only [List.mem_singleton] at hy
    subst hy
    simp
  | cons z zs ih =>
    intro y hy
    rw [List.foldl_cons]
    have hle_x :
        (if z.2.analysis_date < x.2.analysis_date then z else x).2.analysis_date
          ≤ x.2.analysis_date := by
      by_cases hc : z.2.analysis_date < x.2.analysis_date
      · rw [if_pos hc]; omega
      · rw [if_neg hc]
    have hle_z :
        (if z.2.analysis_date < x.2.analysis_date then z else x).2.analysis_date
          ≤ z.2.analysis_date := by
      by_cases hc : z.2.analysis_date < x.2.analysis_date
      · rw [if_pos hc]
      · rw [if_neg hc]; omega
    have hacc := ih (if z.2.analysis_date < x.2.analysis_date then z else x)
    have hfold_le_acc := hacc _ (List.mem_cons_self _ _)
    rcases List.mem_cons.mp hy with h1 | h1
    · subst h1
      exact le_trans hfold_le_acc hle_x
    · rcases List.mem_cons.mp h1 with h2 | h2
      · subst h2
        exact le_trans hfold_le_acc hle_z
      · exact hacc _ (List.mem_cons_of_mem _ h2)

theorem oldestEntry_mem (c : MemCache) (b : String × PDFAnalysis)
    (h : oldestEntry c = some b) : b ∈ c := by
  cases c with
  | nil => simp [oldestEntry] at h
  | cons x xs =>
    unfold oldestEntry at h
    have hb := Option.some_inj.mp h
    rw [← hb]
    exact foldl_min_mem xs x

theorem oldestEntry_le (c : MemCache) (b : String × PDFAnalysis)
    (h : oldestEntry c = some b) : ∀ p ∈ c, b.2.analysis_date ≤ p.2.analysis_date := by
  cases c with
  | nil => simp [oldestEntry] at h
  | cons x xs =>
    unfold oldestEntry at h
    intro p hp
    have hb := Option.some_inj.mp h
    rw [← hb]
    exact foldl_min_le xs x p hp

end PdfCache

namespace PdfCache

theorem uniqueKeys_memInsert (c : MemCache) (k : String) (v : PDFAnalysis)
    (h : uniqueKeys c) : uniqueKeys (memInsert c k v) := by
  unfold memInsert
  by_cases ha : c.any (fun p => p.1 = k) = true
  · rw [if_pos ha]
    rw [uniqueKeys, List.pairwise_map]
    refine h.imp ?_
    intro p q hpq
    by_cases hp : p.1 = k
    · by_cases hq : q.1 = k
      · exact absurd (hp.trans hq.symm) hpq
      · rw [if_pos hp, if_neg hq]
        exact fun hh => hq hh.symm
    · by_cases hq : q.1 = k
      · rw [if_neg hp, if_pos hq]
        exact fun hh : p.1 = (k, v).1 => hp hh
      · rw [if_neg hp, if_neg hq]
        exact hpq
  · rw [if_neg ha]
    rw [uniqueKeys, List.pairwise_append]
    refine ⟨h, List.pairwise_singleton _ _, ?_⟩
    intro p hp q hq
    simp only [List.mem_singleton] at hq
    subst hq
    intro hk
    exact ha (List.any_eq_true.mpr ⟨p, hp, by simp [hk]⟩)

theorem uniqueKeys_filter (c : MemCache) (p : String × PDFAnalysis → Bool)
    (h : uniqueKeys c) : uniqueKeys (c.filter p) :=
  List.Pairwise.filter p h

theorem uniqueKeys_add (N : Nat) (c : MemCache) (a : PDFAnalysis)
    (h : uniqueKeys c) : uniqueKeys (add_to_memory_cache N c a) := by
  unfold add_to_memory_cache
  apply uniqueKeys_memInsert
  by_cases hc : N ≤ c.length
  · rw [if_pos hc]
    cases ho : oldestEntry c with
    | none => exact h
    | some b => exact uniqueKeys_filter _ _ h
  · rw [if_neg hc]
    exact h

theorem add_to_memory_cache_length (N : Nat) (c : MemCache) (a : PDFAnalysis)
    (hN : 1 ≤ N) (hlen : c.length ≤ N) :
    (add_to_memory_cache N c a).length ≤ N := by
  unfold add_to_memory_cache
  by_cases hc : N ≤ c.length
  · have hceq : c.length = N := le_antisymm hlen hc
    have hne : c ≠ [] := by
      intro h0
      rw [h0] at hceq
      simp at hceq
      omega
    obtain ⟨b, hb⟩ : ∃ b, oldestEntry c = some b := by
      cases c with
      | nil => exact absurd rfl hne
      | cons x xs => exact ⟨_, rfl⟩
    rw [if_pos hc, hb]
    show (memInsert (c.filter (fun p => ¬ p.1 = b.1)) a.file_hash a).length ≤ N
    have hbm : b ∈ c := oldestEntry_mem c b hb
    have hflt : (c.filter (fun p => ¬ p.1 = b.1)).length < c.length := by
      rw [List.length_filter_lt_length_iff_exists]
      exact ⟨b, hbm, by simp⟩
    have hins := length_memInsert_le (c.filter (fun p => ¬ p.1 = b.1)) a.file_hash a
    omega
  · rw [if_neg hc]
    have hins := length_memInsert_le c a.file_hash a
    omega

theorem memLookup_add_self (N : Nat) (c : MemCache) (a : PDFAnalysis) :
    memLookup (add_to_memory_cache N c a) a.file_hash = some a := by
  unfold add_to_memory_cache
  exact memLookup_memInsert_self _ _ _

theorem dbUpsert_filter_self (db : Store) (a : PDFAnalysis) (hu : uniqueIds db) :
    (dbUpsert db a).filter (fun r => r.file_id = a.file_id) = [a] := by
  unfold dbUpsert
  by_cases h : db.any (fun r => r.file_id = a.file_id) = true
  · rw [if_pos h]
    induction db with
    | nil => simp at h
    | cons r t ih =>
      unfold uniqueIds at hu
      rw [List.pairwise_cons] at hu
      by_cases hr : r.file_id = a.file_id
      · rw [List.map_cons, if_pos hr, List.filter_cons_of_pos (by simp)]
        have htmap : t.map (fun r => if r.file_id = a.file_id then a else r) = t := by
          have h1 : ∀ x ∈ t, (fun r => if r.file_id = a.file_id then a else r) x = id x := by
            intro x hx
            simp only [id]
            rw [if_neg]
            intro hx2
            exact hu.1 x hx (hr.trans hx2.symm)
          rw [List.map_congr_left h1, List.map_id]
        rw [htmap, List.filter_eq_nil_iff.mpr]
        intro x hx
        simp only [decide_eq_true_eq]
        intro hx2
        exact hu.1 x hx (hr.trans hx2.symm)
      · rw [List.map_cons, if_neg hr, List.filter_cons_of_neg (by simp [hr])]
        apply ih
        · exact hu.2
        · rw [List.any_cons, decide_eq_false hr, Bool.false_or] at h
          exact h
  · rw [if_neg h, List.filter_append, List.filter_cons_of_pos (by simp),
      List.filter_nil, List.filter_eq_nil_iff.mpr, List.nil_append]
    intro x hx
    simp only [decide_eq_true_eq]
    intro hx2
    exact h (List.any_eq_true.mpr ⟨x, hx, by simp [hx2]⟩)

theorem uniqueIds_dbUpsert (db : Store) (a : PDFAnalysis) (hu : uniqueIds db) :
    uniqueIds (dbUpsert db a) := by
  unfold dbUpsert
  by_cases h : db.any (fun r => r.file_id = a.file_id) = true
  · rw [if_pos h]
    rw [uniqueIds, List.pairwise_map]
    refine hu.imp ?_
    intro r1 r2 h12
    by_cases h1 : r1.file_id = a.file_id
    · by_cases h2 : r2.file_id = a.file_id
      · exact absurd (h1.trans h2.symm) h12
      · rw [if_pos h1, if_neg h2]
        exact fun hh => h12 (h1.trans hh)
    · by_cases h2 : r2.file_id = a.file_id
      · rw [if_neg h1, if_pos h2]
        exact h1
      · rw [if_neg h1, if_neg h2]
        exact h12
  · rw [if_neg h]
    rw [uniqueIds, List.pairwise_append]
    refine ⟨hu, List.pairwise_singleton _ _, ?_⟩
    intro r1 h1 r2 h2
    simp only [List.mem_singleton] at h2
    subst h2
    intro hk
    exact h (List.any_eq_true.mpr ⟨r1, h1, by simp [hk]⟩)

end PdfCache

namespace PdfCache

theorem get_from_db_hit_valid (storeOk : Bool) (now : Int) (s : CacheState)
    (h' : String) (a : PDFAnalysis)
    (h : (get_cached_from_db storeOk now s h').1 = some a) :
    is_analysis_valid now a = true := by
  unfold get_cached_from_db at h
  by_cases hso : storeOk = true
  · rw [if_pos hso] at h
    cases hl : latestCompleted s.db h' with
    | none =>
      simp only [hl] at h
      simp at h
    | some row =>
      simp only [hl] at h
      by_cases hv : is_analysis_valid now row = true
      · rw [if_pos hv] at h
        simp only [Option.some_inj] at h
        rw [← h]
        exact hv
      · rw [if_neg hv] at h
        simp at h
  · rw [if_neg hso] at h
    simp at h

theorem get_hit_is_valid (storeOk : Bool) (now : Int) (hashFn : List Nat → String)
    (s : CacheState) (file : Option (List Nat)) (a : PDFAnalysis)
    (h : (get_cached_analysis storeOk now hashFn s file).1 = some a) :
    is_analysis_valid now a = true := by
  unfold get_cached_analysis at h
  simp only [] at h
  by_cases h0 : calculate_file_hash hashFn file = ""
  · rw [if_pos h0] at h
    simp at h
  · rw [if_neg h0] at h
    cases hm : memLookup s.memCache (calculate_file_hash hashFn file) with
    | none =>
      simp only [hm] at h
      exact get_from_db_hit_valid _ _ _ _ _ h
    | some cached =>
      simp only [hm] at h
      by_cases hv : is_analysis_valid now cached = true
      · rw [if_pos hv] at h
        simp only [Option.some_inj] at h
        rw [← h]
        exact hv
      · rw [if_neg hv] at h
        exact get_from_db_hit_valid _ _ _ _ _ h

theorem get_store_down_mem_hit (now : Int) (hashFn : List Nat → String)
    (s : CacheState) (bytes : List Nat) (c : PDFAnalysis)
    (h0 : ¬ hashFn bytes = "")
    (hm : memLookup s.memCache (hashFn bytes) = some c)
    (hv : is_analysis_valid now c = true) :
    get_cached_analysis false now hashFn s (some bytes) = (some c, s) := by
  unfold get_cached_analysis
  simp only [calculate_file_hash]
  rw [if_neg h0]
  simp only [hm, if_pos hv]

theorem get_store_down_miss (now : Int) (hashFn : List Nat → String)
    (s : CacheState) (file : Option (List Nat))
    (hm : ∀ c, memLookup s.memCache (calculate_file_hash hashFn file) = some c →
          is_analysis_valid now c = false) :
    get_cached_analysis false now hashFn s file = (none, s) := by
  unfold get_cached_analysis
  by_cases h0 : calculate_file_hash hashFn file = ""
  · rw [if_pos h0]
  · rw [if_neg h0]
    cases hmm : memLookup s.memCache (calculate_file_hash hashFn file) with
    | none =>
      simp [hmm, get_cached_from_db]
    | some c =>
      simp [hmm, hm c hmm, get_cached_from_db]

end PdfCache

namespace PdfCache

theorem analyze_producer_failure (now : Int) (hashFn : List Nat → String)
    (bytes : List Nat) (text err fid fn : String) (dur : Rat) (s s1 : CacheState)
    (hmiss : get_cached_analysis true now hashFn s (some bytes) = (none, s1))
    (htext : ¬ text = "") :
    analyze_pdf_with_cache true now hashFn (some bytes) text (ProducerOutcome.failed err)
        dur fid fn s =
      ({ success := false, analysis := emptyJson, error := some err,
         tokens_used := none, processing_time := none,
         from_cache := none, cache_hit := none },
       { db := dbUpsert s1.db (failedRecord fid fn (hashFn bytes) now dur err),
         memCache := add_to_memory_cache maxMemoryCache s1.memCache
           (failedRecord fid fn (hashFn bytes) now dur err) }) := by
  unfold analyze_pdf_with_cache
  simp only [hmiss, calculate_file_hash, save_analysis, htext, if_false, if_true]

theorem analyze_unreadable (now : Int) (hashFn : List Nat → String) (s : CacheState)
    (extractedText : String) (producer : ProducerOutcome) (dur : Rat) (fid fn : String) :
    analyze_pdf_with_cache true now hashFn none extractedText producer dur fid fn s =
      ({ success := false, analysis := emptyJson,
         error := some "No se pudo extraer texto del PDF",
         tokens_used := none, processing_time := some dur,
         from_cache := some false, cache_hit := some false },
       { db := dbUpsert s.db
           (failedRecord fid fn "" now dur "No se pudo extraer texto del PDF"),
         memCache := add_to_memory_cache maxMemoryCache s.memCache
           (failedRecord fid fn "" now dur "No se pudo extraer texto del PDF") }) := rfl

end PdfCache

namespace PdfCache

/-- C1: contrary to the claim, `get_cached_analysis` can return a record whose
status is 'failed' as a cache hit: the in-memory path checks only the age
(`_is_analysis_valid`), never the status, while the database path of the same
function filters `status = 'completed'`. Evaluated at the failing input: after
a producer failure on the document with digest "sha7" was saved, a fresh
lookup of the same document returns the failed record as a hit. -/
theorem C1_failed_record_served_as_hit :
    demoFailed.status = Status.failed ∧
    memLookup demoState.memCache "sha7" = some demoFailed ∧
    (get_cached_analysis true 150 demoHash demoState (some [7])).1 = some demoFailed := by
  decide

/-- C2 (amended): on a producer failure with the store available, a record with
status Failed and the error detail is upserted to the durable store, the
result reports failure (`success=False`, the error string) rather than a
degraded success, and — contrary to the original claim — an entry for that
failed record IS written to the in-memory hot cache. -/
theorem C2_producer_failure_effects (now : Int) (hashFn : List Nat → String)
    (bytes : List Nat) (text err fid fn : String) (dur : Rat) (s s1 : CacheState)
    (hmiss : get_cached_analysis true now hashFn s (some bytes) = (none, s1))
    (htext : ¬ text = "") :
    (analyze_pdf_with_cache true now hashFn (some bytes) text
        (ProducerOutcome.failed err) dur fid fn s).1.success = false ∧
    (analyze_pdf_with_cache true now hashFn (some bytes) text
        (ProducerOutcome.failed err) dur fid fn s).1.error = some err ∧
    (analyze_pdf_with_cache true now hashFn (some bytes) text
        (ProducerOutcome.failed err) dur fid fn s).2.db =
      dbUpsert s1.db (failedRecord fid fn (hashFn bytes) now dur err) ∧
    memLookup (analyze_pdf_with_cache true now hashFn (some bytes) text
        (ProducerOutcome.failed err) dur fid fn s).2.memCache (hashFn bytes) =
      some (failedRecord fid fn (hashFn bytes) now dur err) := by
  rw [analyze_producer_failure now hashFn bytes text err fid fn dur s s1 hmiss htext]
  exact ⟨rfl, rfl, rfl, memLookup_add_self _ _ _⟩

/-- Witness for C2 at a concrete input: empty initial state, readable document
[7], non-empty extracted text, producer failure "boom". -/
theorem C2_witness :
    (analyze_pdf_with_cache true 100 demoHash (some [7]) "t"
        (ProducerOutcome.failed "boom") 1 "id1" "doc.pdf" ⟨[], []⟩).1.success = false ∧
    (analyze_pdf_with_cache true 100 demoHash (some [7]) "t"
        (ProducerOutcome.failed "boom") 1 "id1" "doc.pdf" ⟨[], []⟩).1.error = some "boom" ∧
    (analyze_pdf_with_cache true 100 demoHash (some [7]) "t"
        (ProducerOutcome.failed "boom") 1 "id1" "doc.pdf" ⟨[], []⟩).2.db =
      dbUpsert ([] : Store) (failedRecord "id1" "doc.pdf" (demoHash [7]) 100 1 "boom") ∧
    memLookup (analyze_pdf_with_cache true 100 demoHash (some [7]) "t"
        (ProducerOutcome.failed "boom") 1 "id1" "doc.pdf" ⟨[], []⟩).2.memCache
        (demoHash [7]) =
      some (failedRecord "id1" "doc.pdf" (demoHash [7]) 100 1 "boom") :=
  C2_producer_failure_effects 100 demoHash [7] "t" "boom" "id1" "doc.pdf" 1
    ⟨[], []⟩ ⟨[], []⟩ (by decide) (by decide)

/-- Counterexample to C2 as stated: after a producer failure, the hot cache
does hold an entry for the failed record. -/
theorem C2_counterexample :
    memLookup (analyze_pdf_with_cache true 100 demoHash (some [7]) "t"
        (ProducerOutcome.failed "boom") 1 "id1" "doc.pdf" ⟨[], []⟩).2.memCache "sha7"
      = some (failedRecord "id1" "doc.pdf" "sha7" 100 1 "boom") := by
  decide

/-- C3 (amended): when the document cannot be read, `_calculate_file_hash`
catches the error and returns the empty string instead of propagating a read
failure; `get_cached_analysis` then reports a miss; `analyze_pdf_with_cache`
does not fail fast: it proceeds, fails at text extraction, saves a Failed
record with empty `file_hash` to the durable store AND the hot cache (caching
is attempted), and returns a failure dict to the caller. -/
theorem C3_read_error_swallowed (storeOk : Bool) (now : Int)
    (hashFn : List Nat → String) (s : CacheState) (extractedText : String)
    (producer : ProducerOutcome) (dur : Rat) (fid fn : String) :
    calculate_file_hash hashFn none = "" ∧
    get_cached_analysis storeOk now hashFn s none = (none, s) ∧
    (analyze_pdf_with_cache true now hashFn none extractedText producer
        dur fid fn s).1.success = false ∧
    (analyze_pdf_with_cache true now hashFn none extractedText producer
        dur fid fn s).1.error = some "No se pudo extraer texto del PDF" ∧
    (analyze_pdf_with_cache true now hashFn none extractedText producer
        dur fid fn s).2.db =
      dbUpsert s.db (failedRecord fid fn "" now dur "No se pudo extraer texto del PDF") ∧
    memLookup (analyze_pdf_with_cache true now hashFn none extractedText producer
        dur fid fn s).2.memCache "" =
      some (failedRecord fid fn "" now dur "No se pudo extraer texto del PDF") := by
  refine ⟨rfl, rfl, ?_⟩
  rw [analyze_unreadable now hashFn s extractedText producer dur fid fn]
  exact ⟨rfl, rfl, rfl, memLookup_add_self _ _ _⟩

/-- Counterexample to C3 as stated: on an unreadable document the fingerprint
is the fabricated empty digest (no failure propagated), and caching is
attempted — the store ends up holding a Failed record with empty hash. -/
theorem C3_counterexample :
    calculate_file_hash demoHash none = "" ∧
    (analyze_pdf_with_cache true 100 demoHash none "" (ProducerOutcome.ok "x" 1)
        1 "id9" "u.pdf" ⟨[], []⟩).2.db =
      [failedRecord "id9" "u.pdf" "" 100 1 "No se pudo extraer texto del PDF"] := by
  decide

/-- C10: the `cache_hit_rate` field reported by `get_analysis_stats` is the
constant 0.85 (= 85/100) for every cache state, independent of any lookup or
save history; it does not measure real hit behaviour. -/
theorem C10_cache_hit_rate_constant (s : CacheState) :
    (get_analysis_stats s).cache_hit_rate = 85 / 100 ∧
    calculate_cache_hit_rate = 85 / 100 :=
  ⟨rfl, rfl⟩

end PdfCache

namespace PdfCache

theorem add_at_capacity (N : Nat) (c : MemCache) (a : PDFAnalysis)
    (b : String × PDFAnalysis) (hcap : N ≤ c.length) (hb : oldestEntry c = some b) :
    add_to_memory_cache N c a = memInsert (c.filter (fun p => ¬ p.1 = b.1)) a.file_hash a := by
  unfold add_to_memory_cache
  rw [if_pos hcap, hb]

theorem add_below_capacity (N : Nat) (c : MemCache) (a : PDFAnalysis)
    (hcap : ¬ N ≤ c.length) :
    add_to_memory_cache N c a = memInsert c a.file_hash a := by
  unfold add_to_memory_cache
  rw [if_neg hcap]

theorem dbUpsert_length_of_any (db : Store) (a : PDFAnalysis)
    (h : db.any (fun r => r.file_id = a.file_id) = true) :
    (dbUpsert db a).length = db.length := by
  unfold dbUpsert
  rw [if_pos h, List.length_map]

set_option maxRecDepth 20000 in
/-- C4 (amended): the hot cache keeps at most `N` entries and distinct keys;
whenever it is at capacity, the single oldest entry by `analysis_date` is
evicted before inserting — regardless of whether the inserted key is already
present (the original claim's "no eviction when the key is present" fails, see
the counterexample); below capacity nothing is evicted; and inserting
`N + 5 = 55` distinct fingerprints in increasing creation order into an empty
cache of the default capacity `N = 50` leaves exactly the 50 most recently
created entries. -/
theorem C4_hot_cache_bound_and_eviction (N : Nat) (c : MemCache) (a : PDFAnalysis)
    (b : String × PDFAnalysis) (hu : uniqueKeys c) (hN : 1 ≤ N) (hlen : c.length ≤ N) :
    (uniqueKeys (add_to_memory_cache N c a) ∧ (add_to_memory_cache N c a).length ≤ N) ∧
    (N ≤ c.length → oldestEntry c = some b →
      (∀ p ∈ c, b.2.analysis_date ≤ p.2.analysis_date) ∧
      memLookup (add_to_memory_cache N c a) a.file_hash = some a ∧
      (¬ b.1 = a.file_hash → memLookup (add_to_memory_cache N c a) b.1 = none) ∧
      (∀ k, ¬ k = a.file_hash → ¬ k = b.1 →
        memLookup (add_to_memory_cache N c a) k = memLookup c k)) ∧
    (¬ N ≤ c.length → ∀ k,
      memLookup (add_to_memory_cache N c a) k =
        if k = a.file_hash then some a else memLookup c k) ∧
    fillCache maxMemoryCache 55 =
      ((List.range 55).drop 5).map (fun i => ("h" ++ toString i, mkRec i)) := by
  refine ⟨⟨uniqueKeys_add N c a hu, add_to_memory_cache_length N c a hN hlen⟩, ?_, ?_, by decide⟩
  · intro hcap hb
    rw [add_at_capacity N c a b hcap hb]
    refine ⟨oldestEntry_le c b hb, memLookup_memInsert_self _ _ _, ?_, ?_⟩
    · intro hne
      rw [memLookup_memInsert_ne _ _ _ _ hne]
      exact memLookup_filter_self c b.1
    · intro k hk1 hk2
      rw [memLookup_memInsert_ne _ _ _ _ hk1]
      exact memLookup_filter_ne c b.1 k hk2
  · intro hcap k
    rw [add_below_capacity N c a hcap]
    by_cases hk : k = a.file_hash
    · subst hk
      rw [if_pos rfl]
      exact memLookup_memInsert_self _ _ _
    · rw [if_neg hk, memLookup_memInsert_ne _ _ _ _ hk]

/-- Witness for C4 at a concrete input: capacity 2, a full two-entry cache,
inserting a record with the fresh fingerprint "h2" evicts exactly the oldest
entry "h0". -/
theorem C4_witness :
    (uniqueKeys (add_to_memory_cache 2 demoC4Cache (mkRec 2)) ∧
     (add_to_memory_cache 2 demoC4Cache (mkRec 2)).length ≤ 2) ∧
    memLookup (add_to_memory_cache 2 demoC4Cache (mkRec 2)) "h0" = none :=
  have h := C4_hot_cache_bound_and_eviction 2 demoC4Cache (mkRec 2) ("h0", mkRec 0)
    (by decide) (by decide) (by decide)
  ⟨h.1, (h.2.1 (by decide) (by decide)).2.2.1 (by decide)⟩

/-- Counterexample to C4 as stated: at capacity 2, inserting a record whose
key "h1" is already present still evicts the oldest entry "h0" — the claim's
"no entry is evicted when the key is already present" is false. -/
theorem C4_counterexample :
    demoC4Cache.length = 2 ∧
    demoC4Rec.file_hash = "h1" ∧
    memLookup demoC4Cache "h1" = some (mkRec 1) ∧
    memLookup demoC4Cache "h0" = some (mkRec 0) ∧
    memLookup (add_to_memory_cache 2 demoC4Cache demoC4Rec) "h0" = none := by
  decide

/-- C5: upserting two records sharing a `file_id` leaves exactly one durable
row for that id, holding the second record's values, and the one-row-per-id
primary-key invariant is preserved (at most one row ever exists per id); with
equal ids the second upsert adds no row. -/
theorem C5_upsert_idempotent (s : CacheState) (a1 a2 : PDFAnalysis)
    (hu : uniqueIds s.db) (hid : a1.file_id = a2.file_id) :
    ((save_analysis true (save_analysis true s a1).1 a2).1.db.filter
        (fun r => r.file_id = a2.file_id)) = [a2] ∧
    uniqueIds (save_analysis true (save_analysis true s a1).1 a2).1.db ∧
    (save_analysis true (save_analysis true s a1).1 a2).1.db.length =
      (save_analysis true s a1).1.db.length := by
  have hu1 : uniqueIds (dbUpsert s.db a1) := uniqueIds_dbUpsert s.db a1 hu
  have hfil1 : (dbUpsert s.db a1).filter (fun r => r.file_id = a1.file_id) = [a1] :=
    dbUpsert_filter_self s.db a1 hu
  have hmem : a1 ∈ dbUpsert s.db a1 := by
    have : a1 ∈ (dbUpsert s.db a1).filter (fun r => r.file_id = a1.file_id) := by
      rw [hfil1]
      exact List.mem_singleton_self a1
    exact (List.mem_filter.mp this).1
  have hany : (dbUpsert s.db a1).any (fun r => r.file_id = a2.file_id) = true :=
    List.any_eq_true.mpr ⟨a1, hmem, by simp [hid]⟩
  refine ⟨?_, ?_, ?_⟩
  · show ((dbUpsert (dbUpsert s.db a1) a2).filter (fun r => r.file_id = a2.file_id)) = [a2]
    exact dbUpsert_filter_self _ a2 hu1
  · show uniqueIds (dbUpsert (dbUpsert s.db a1) a2)
    exact uniqueIds_dbUpsert _ a2 hu1
  · show (dbUpsert (dbUpsert s.db a1) a2).length = (dbUpsert s.db a1).length
    exact dbUpsert_length_of_any _ a2 hany

/-- Witness for C5 at a concrete input: two records with `file_id` "b1"
upserted into an empty store. -/
theorem C5_witness :
    ((save_analysis true (save_analysis true ⟨[], []⟩ (bRec 0)).1 (bRec 1)).1.db.filter
        (fun r => r.file_id = (bRec 1).file_id)) = [bRec 1] ∧
    uniqueIds (save_analysis true (save_analysis true ⟨[], []⟩ (bRec 0)).1 (bRec 1)).1.db ∧
    (save_analysis true (save_analysis true ⟨[], []⟩ (bRec 0)).1 (bRec 1)).1.db.length =
      (save_analysis true ⟨[], []⟩ (bRec 0)).1.db.length :=
  C5_upsert_idempotent ⟨[], []⟩ (bRec 0) (bRec 1) (by decide) (by decide)

end PdfCache

namespace PdfCache

/-- C6 (amended): the validity predicate used by cache lookup holds exactly
when `now - analysis_date < max_age` (strict bound, 30 days), with no status
check — status filtering happens only in the durable-store query, not in the
predicate or on the in-memory path; every record returned as a hit satisfies
this freshness bound; a Completed record aged `max_age + 1s` is never a hit
and one aged `max_age - 1s` (status completed, found in the store) is. -/
theorem C6_validity_boundary :
    (∀ now (a : PDFAnalysis),
      is_analysis_valid now a = true ↔ now - a.analysis_date < maxAgeSeconds) ∧
    (∀ (storeOk : Bool) (now : Int) (hashFn : List Nat → String) (s : CacheState)
        (file : Option (List Nat)) (a : PDFAnalysis),
      (get_cached_analysis storeOk now hashFn s file).1 = some a →
      now - a.analysis_date < maxAgeSeconds) ∧
    (get_cached_analysis true (maxAgeSeconds + 1) demoHash (dbState (bRec 2))
        (some [7])).1 = some (bRec 2) ∧
    (get_cached_analysis true (maxAgeSeconds + 1) demoHash (dbState (bRec 0))
        (some [7])).1 = none := by
  refine ⟨?_, ?_, by decide, by decide⟩
  · intro now a
    unfold is_analysis_valid
    exact decide_eq_true_iff
  · intro storeOk now hashFn s file a h
    have hv := get_hit_is_valid storeOk now hashFn s file a h
    exact of_decide_eq_true hv

/-- Witness for C6 at a concrete input: the hit returned for the boundary
record `bRec 2` is indeed fresh. -/
theorem C6_witness :
    (maxAgeSeconds + 1) - (bRec 2).analysis_date < maxAgeSeconds :=
  C6_validity_boundary.2.1 true (maxAgeSeconds + 1) demoHash (dbState (bRec 2))
    (some [7]) (bRec 2) (by decide)

/-- Counterexample to C6 as stated: a fresh record with status failed
satisfies the code's validity predicate (no status check), and a completed
record aged exactly `max_age` does not (strict bound), although the claimed
predicate `status = Completed AND age <= max_age` holds of it. -/
theorem C6_counterexample :
    (is_analysis_valid 0 c6failedFresh = true ∧
     c6failedFresh.status = Status.failed) ∧
    (is_analysis_valid maxAgeSeconds c6boundary = false ∧
     c6boundary.status = Status.completed ∧
     maxAgeSeconds - c6boundary.analysis_date ≤ maxAgeSeconds) := by
  decide

/-- C7 (amended): `clear_old_analyses` removes exactly the rows whose
`analysis_date` precedes `now - days`, leaves the in-memory cache untouched,
and returns `None` — the deleted count is logged but NOT returned; on a store
with one record dated 40 days ago and one dated 5 days ago, clearing with 30
days removes exactly the old row (and still returns no count). -/
theorem C7_retention_sweep (now : Int) (s : CacheState) (days : Int) :
    ((clear_old_analyses true now s days).2 = none ∧
     (clear_old_analyses true now s days).1.memCache = s.memCache ∧
     ∀ r, r ∈ (clear_old_analyses true now s days).1.db ↔
       r ∈ s.db ∧ ¬ r.analysis_date < now - days * 86400) ∧
    ((clear_old_analyses true c7now c7state 30).1.db = [c7recent] ∧
     (clear_old_analyses true c7now c7state 30).2 = none) := by
  refine ⟨⟨rfl, rfl, ?_⟩, by decide, rfl⟩
  intro r
  simp [clear_old_analyses, List.mem_filter]

/-- Witness for C7 at a concrete input: the 40-day-old row is gone, the
5-day-old row remains, no count is returned. -/
theorem C7_witness :
    (clear_old_analyses true c7now c7state 30).2 = none ∧
    ((clear_old_analyses true c7now c7state 30).1.db = [c7recent] ∧
     (clear_old_analyses true c7now c7state 30).2 = none) :=
  ⟨(C7_retention_sweep c7now c7state 30).1.1, (C7_retention_sweep c7now c7state 30).2⟩

/-- Counterexample to C7 as stated: on the two-row store the sweep does remove
exactly one row, but its return value is `None`, not the count 1. -/
theorem C7_counterexample :
    c7state.db.length = 2 ∧
    (clear_old_analyses true c7now c7state 30).1.db = [c7recent] ∧
    ¬ (clear_old_analyses true c7now c7state 30).2 = some 1 := by
  decide

/-- C8 (amended): durable-store failures are caught inside the cache manager,
not surfaced: `save_analysis` under a store failure returns normally
(`None`, no exception) with the state unchanged, and `get_cached_analysis`
under a store failure returns a miss instead of an error — while the
in-memory hot cache still serves fresh hits independently during the
outage. -/
theorem C8_store_outage :
    (∀ (s : CacheState) (a : PDFAnalysis),
      save_analysis false s a = (s, Except.ok ())) ∧
    (∀ (now : Int) (hashFn : List Nat → String) (s : CacheState)
        (bytes : List Nat) (c : PDFAnalysis),
      ¬ hashFn bytes = "" →
      memLookup s.memCache (hashFn bytes) = some c →
      is_analysis_valid now c = true →
      get_cached_analysis false now hashFn s (some bytes) = (some c, s)) ∧
    (∀ (now : Int) (hashFn : List Nat → String) (s : CacheState)
        (file : Option (List Nat)),
      (∀ c, memLookup s.memCache (calculate_file_hash hashFn file) = some c →
        is_analysis_valid now c = false) →
      get_cached_analysis false now hashFn s file = (none, s)) :=
  ⟨fun _ _ => rfl,
   fun now hashFn s bytes c h0 hm hv => get_store_down_mem_hit now hashFn s bytes c h0 hm hv,
   fun now hashFn s file hm => get_store_down_miss now hashFn s file hm⟩

/-- Witness for C8 at a concrete input: with the store down, a fresh
completed record present in the hot cache is still served as a hit. -/
theorem C8_witness :
    get_cached_analysis false maxAgeSeconds demoHash c8state (some [7]) =
      (some (bRec 2), c8state) :=
  C8_store_outage.2.1 maxAgeSeconds demoHash c8state [7] (bRec 2)
    (by decide) (by decide) (by decide)

/-- Counterexample to C8 as stated: a store failure during `save_analysis`
does not surface as a catchable failure — the call returns normally with the
state unchanged. -/
theorem C8_counterexample :
    save_analysis false demoState demoFailed = (demoState, Except.ok ()) := rfl

/-- C9: `get_analysis_stats` computes the total/successful/failed counts, the
token sum and the mean processing time directly from the stored rows (no
separate running counters); after saving 3 completed records with 10, 20, 30
tokens and 1 failed record it reports total=4, successful=3, failed=1,
total_tokens_used=60. -/
theorem C9_aggregate_stats :
    (∀ s : CacheState,
      (get_analysis_stats s).total_analyses = s.db.length ∧
      (get_analysis_stats s).successful_analyses =
        s.db.countP (fun r => r.status = Status.completed) ∧
      (get_analysis_stats s).failed_analyses =
        s.db.countP (fun r => r.status = Status.failed) ∧
      (get_analysis_stats s).total_tokens_used =
        (s.db.map (fun r => r.tokens_used)).sum ∧
      (¬ s.db = [] → (get_analysis_stats s).average_processing_time =
        (s.db.map (fun r => r.processing_time)).sum / (s.db.length : Rat))) ∧
    ((get_analysis_stats c9state).total_analyses = 4 ∧
     (get_analysis_stats c9state).successful_analyses = 3 ∧
     (get_analysis_stats c9state).failed_analyses = 1 ∧
     (get_analysis_stats c9state).total_tokens_used = 60 ∧
     (get_analysis_stats c9state).average_processing_time = 1 ∧
     (get_analysis_stats c9state).memory_cache_size = 4) := by
  constructor
  · intro s
    refine ⟨rfl, (List.countP_eq_length_filter _ _).symm,
      (List.countP_eq_length_filter _ _).symm, rfl, ?_⟩
    intro hne
    show (if s.db.length = 0 then 0
      else (s.db.map (fun r => r.processing_time)).sum / (s.db.length : Rat)) =
      (s.db.map (fun r => r.processing_time)).sum / (s.db.length : Rat)
    rw [if_neg (fun h0 => hne (List.length_eq_zero.mp h0))]
  · have hdb : c9state.db =
        [c9rec 0 10 Status.completed, c9rec 1 20 Status.completed,
         c9rec 2 30 Status.completed, c9rec 3 0 Status.failed] := by decide
    refine ⟨by decide, by decide, by decide, by decide, ?_, by decide⟩
    show (if c9state.db.length = 0 then 0
      else (c9state.db.map (fun r => r.processing_time)).sum / (c9state.db.length : Rat)) = 1
    rw [hdb]
    norm_num [c9rec]

/-- Witness for C9 at a concrete input: the mean processing time over the
four-row scenario store. -/
theorem C9_witness :
    ¬ (c9state.db = []) ∧
    (get_analysis_stats c9state).average_processing_time =
      (c9state.db.map (fun r => r.processing_time)).sum / (c9state.db.length : Rat) :=
  ⟨by decide, (C9_aggregate_stats.1 c9state).2.2.2.2 (by decide)⟩

end PdfCache
